import Mathlib

/-!
Verification of the structural extraction engine and markdown renderer of
`galvez/typejuice` (`packages/typejuice/index.js`).

The JavaScript source is shallowly embedded: the TypeScript syntax-tree nodes
are modelled as inductive types exposing exactly the fields the extractor
reads (syntax kind, identifier text, optional marker, type-annotation
sub-trees, qualified-name left/right linkage, and the `pos`/`end` text span),
and each method of the `TypeJuice` class becomes a Lean function of the same
name taking the source body as an explicit argument.  JavaScript string
slicing and regular-expression matching are modelled character-by-character
over `List Char`; the JS `\s` class is modelled by `jsIsSpace` (its ASCII
members plus no-break space), which agrees with JS on all inputs used here.
-/

/-- Whitespace test modelling the JS regex class `\s` (ASCII part plus
no-break space); used by the comment scanner's `^\s*` and `^\s*$` matches
and by `String.prototype.trim`. -/
def jsIsSpace (c : Char) : Bool :=
  c = ' ' || c = '\t' || c = '\r' || c = '\n' || c = '\x0b' || c = '\x0c' || c = ' '

/-- Both-ends trim over characters, modelling `String.prototype.trim`. -/
def trimWS (cs : List Char) : List Char :=
  ((cs.dropWhile jsIsSpace).reverse.dropWhile jsIsSpace).reverse

/-- Split a character sequence into lines, modelling `split(/\r?\n/)`:
each line break is a `\n` optionally preceded by a `\r` that is consumed
with it; a lone `\r` stays inside its line. -/
def splitLinesCh : List Char → List (List Char)
  | [] => [[]]
  | '\r' :: '\n' :: rest => [] :: splitLinesCh rest
  | '\n' :: rest => [] :: splitLinesCh rest
  | c :: rest =>
    match splitLinesCh rest with
    | [] => [[c]]
    | l :: ls => (c :: l) :: ls

/-- Substring extraction modelling `String.prototype.slice(pos, end)` on the
source body (the sources in scope are ASCII, so JS UTF-16 code-unit indexing
and character indexing agree). -/
def sliceChars (src : String) (pos endPos : Nat) : List Char :=
  (src.toList.drop pos).take (endPos - pos)

/-- Join a list of strings with a separator, modelling `Array.prototype.join`. -/
def joinSep (sep : String) : List String → String
  | [] => ""
  | [s] => s
  | s :: rest => s ++ sep ++ joinSep sep rest

/-- Lookup table `keywordMap` from `index.js` lines 8-15, mapping a
`ts.SyntaxKind` name to the canonical lowercase type name; `none` models the
JS `undefined` produced by a lookup miss. -/
def keywordMap (kind : String) : Option String :=
  if kind = "StringKeyword" then some "string"
  else if kind = "NumberKeyword" then some "number"
  else if kind = "BooleanKeyword" then some "boolean"
  else if kind = "NullKeyword" then some "null"
  else if kind = "UndefinedKeyword" then some "undefined"
  else if kind = "ObjectKeyword" then some "object"
  else none

/-- Entity-name node of a type reference (`typeName` in the TS AST): either a
simple identifier carrying `escapedText`, or a qualified name with a `left`
entity name and a `right` identifier (whose text is stored directly). -/
inductive EntityName where
  | ident (escapedText : String)
  | qualified (left : EntityName) (right : String)
deriving DecidableEq

/-- Transcription of `extractTypeName` (`index.js` lines 161-182).  A node
with truthy `escapedText` returns it; otherwise the qualified case rebuilds
the dotted name, guarding each appended `.` with the JS `if (result)`
emptiness checks. -/
def extractTypeName : EntityName → String
  | .ident t => t
  | .qualified (.ident lt) r => (if lt = "" then "" else lt ++ ".") ++ r
  | .qualified (.qualified ll lr) r => extractTypeName ll ++ "." ++ lr ++ "." ++ r

/-- Left-to-right segment list of an entity name (specification-side view of
a dotted name). -/
def segments : EntityName → List String
  | .ident t => [t]
  | .qualified l r => segments l ++ [r]

/-- Dotted join of name segments. -/
def dotJoin : List String → String := joinSep "."

/-- Type-annotation node (`node.type` in the TS AST), exposing the fields
`extractNodeTypes` inspects: a `typeName` for type references, a literal kind
for literal types, the node's own syntax-kind name for keyword nodes, and a
`types` member list for unions. -/
inductive TypeNode where
  | ref (typeName : EntityName)
  | literalType (literalKind : String)
  | keyword (kind : String)
  | union (types : List TypeNode)

/-- Syntax-kind name of a type node, modelling `ts.SyntaxKind[type.kind]`. -/
def TypeNode.kindName : TypeNode → String
  | .ref _ => "TypeReference"
  | .literalType _ => "LiteralType"
  | .keyword k => k
  | .union _ => "UnionType"

/-- Truthiness of `node.type.types`, the union test in `extractNodeTypes`. -/
def TypeNode.hasTypes : TypeNode → Bool
  | .union _ => true
  | _ => false

/-- Per-node name resolution shared by both branches of `extractNodeTypes`:
a `typeName` resolves through `extractTypeName`, a literal through
`keywordMap` on the literal's kind, anything else through `keywordMap` on
the node's own kind name (`none` models JS `undefined`). -/
def resolveType : TypeNode → Option String
  | .ref typeName => some (extractTypeName typeName)
  | .literalType lk => keywordMap lk
  | t => keywordMap t.kindName

/-- One element of the `types` array built by `extractNodeTypes`: the union
branch pushes an unwrapped (`bare`) resolved name, the non-union branch
pushes a one-element array (`wrapped`); `Option.none` models `undefined`. -/
inductive TypeEntry where
  | bare (name : Option String)
  | wrapped (names : List (Option String))
deriving DecidableEq

/-- Loop body of the union branch of `extractNodeTypes` (lines 136-146):
each union member is resolved and pushed without wrapping. -/
def unionLoop : List TypeNode → List TypeEntry
  | [] => []
  | t :: rest => .bare (resolveType t) :: unionLoop rest

/-- Transcription of `extractNodeTypes` (`index.js` lines 133-159): if the
annotation has a `types` list (a union) every member is pushed bare,
otherwise the single resolved name is pushed wrapped in a one-element array. -/
def extractNodeTypes (ty : TypeNode) : List TypeEntry :=
  match ty with
  | .union ts => unionLoop ts
  | t => [.wrapped [resolveType t]]

/-- Line-comment matcher modelling the regex `^\s*\/\/(.+?)$` of
`extractNodeComments`: optional leading whitespace, `//`, then at least one
character (the `.` class excludes `\r` and `\n`); the captured text is
returned trimmed, as in `commentMatch[1].trim()`. -/
def commentMatch (line : List Char) : Option String :=
  match line.dropWhile jsIsSpace with
  | '/' :: '/' :: rest =>
    if rest.isEmpty || rest.any (fun c => c = '\r' || c = '\n') then none
    else some (String.mk (trimWS rest))
  | _ => none

/-- Blank-line matcher modelling the regex `^\s*$`. -/
def isBlankLine (line : List Char) : Bool := line.all jsIsSpace

/-- Append continuation text onto the last accumulated paragraph, modelling
`comments[comments.length - 1] += ' ' + text`. -/
def appendToLast : List String → String → List String
  | [], text => [text]
  | [c], text => [c ++ " " ++ text]
  | c :: rest, text => c :: appendToLast rest text

/-- Line scan of `extractNodeComments` (`index.js` lines 189-204): a comment
line either continues the last paragraph (no line break seen and something
already accumulated) or starts a new one; a blank line records a paragraph
break; any other line terminates the scan once a comment has been seen with
no intervening blank line, and is skipped otherwise. -/
def scanCommentLines : List (List Char) → List String → Bool → Bool → List String
  | [], comments, _, _ => comments
  | line :: rest, comments, seenComment, lineBreak =>
    match commentMatch line with
    | some text =>
      if !lineBreak && !comments.isEmpty then
        scanCommentLines rest (appendToLast comments text) true false
      else
        scanCommentLines rest (comments ++ [text]) true false
    | none =>
      if isBlankLine line then
        scanCommentLines rest comments seenComment true
      else if !lineBreak && seenComment then
        comments
      else
        scanCommentLines rest comments seenComment lineBreak

/-- Effect of `extractNodeComments` (`index.js` lines 184-206) on the
`comments` array it is handed: the node's `[pos, end)` span of the source
body is split into lines and scanned.  The JS function additionally returns
`wrap(comments.join('\n\n'), { width: 80 })`, a word-wrapped join supplied
by the external `word-wrap` package, but every caller discards that return
value, so only the accumulated list is modelled. -/
def extractNodeCommentsList (src : String) (pos endPos : Nat) (comments : List String) : List String :=
  scanCommentLines (splitLinesCh (sliceChars src pos endPos)) comments false false

/-- Named, possibly optional, typed node (an interface property signature, a
class property declaration, or a parameter), exposing the fields
`extractNodeMeta` reads: `name.escapedText`, `questionToken` presence, the
type annotation, and the `pos`/`end` span (the JS `end` is `endPos` here). -/
structure MemberNode where
  name : String
  questionToken : Bool
  type : TypeNode
  pos : Nat
  endPos : Nat

/-- Second component of a FieldMeta pair. -/
structure FieldInfo where
  optional : Bool
  types : List TypeEntry
  comments : List String

/-- Normalized field metadata `[name, { optional, types, comments }]`. -/
abbrev FieldMeta := String × FieldInfo

/-- Transcription of `extractNodeMeta` (`index.js` lines 122-131); the JS
mutation of the fresh `comments` array by `extractNodeComments` is modelled
by computing the scanned list directly. -/
def extractNodeMeta (src : String) (node : MemberNode) : FieldMeta :=
  (node.name,
   { optional := node.questionToken,
     types := extractNodeTypes node.type,
     comments := extractNodeCommentsList src node.pos node.endPos [] })

/-- Constructor member node: its parameter list and its `pos`/`end` span. -/
structure CtorNode where
  parameters : List MemberNode
  pos : Nat
  endPos : Nat

/-- Constructor metadata `{ params, comments }`. -/
structure ConstructorMeta where
  params : List FieldMeta
  comments : List String

/-- Transcription of `extractConstructor` (`index.js` lines 99-107). -/
def extractConstructor (src : String) (member : CtorNode) : ConstructorMeta :=
  { params := member.parameters.map (extractNodeMeta src),
    comments := extractNodeCommentsList src member.pos member.endPos [] }

/-- Class member as dispatched by the `switch` in `extractClass`: a
constructor, a property declaration, or any other member kind (ignored). -/
inductive ClassMember where
  | ctor (node : CtorNode)
  | property (node : MemberNode)
  | otherMember

/-- Whether a class member is a constructor. -/
def ClassMember.isCtor : ClassMember → Bool
  | .ctor _ => true
  | _ => false

/-- Class declaration node: name and member list. -/
structure ClassNode where
  name : String
  members : List ClassMember

/-- Declaration metadata record.  The JS meta objects have different field
sets per declaration kind (`InterfaceMeta`, `ClassMeta`, `FunctionMeta`);
`Option.none` models a field that is absent (or `null`), which is falsy in
the renderer's guards, while `some []` models a present but empty array,
which is truthy. -/
structure Meta where
  name : String
  constructorMeta : Option ConstructorMeta := none
  params : Option (List FieldMeta) := none
  props : Option (List FieldMeta) := none
  returnTypes : Option (List TypeEntry) := none

/-- Member loop of `extractClass` (`index.js` lines 84-95): each constructor
overwrites `constructorMeta`, property declarations are appended to `props`,
anything else is skipped. -/
def extractClassLoop (src : String) : List ClassMember → Option ConstructorMeta → List FieldMeta → Option ConstructorMeta × List FieldMeta
  | [], ctorMeta, props => (ctorMeta, props)
  | .ctor c :: rest, _, props => extractClassLoop src rest (some (extractConstructor src c)) props
  | .property p :: rest, ctorMeta, props => extractClassLoop src rest ctorMeta (props ++ [extractNodeMeta src p])
  | .otherMember :: rest, ctorMeta, props => extractClassLoop src rest ctorMeta props

/-- Transcription of `extractClass` (`index.js` lines 77-97). -/
def extractClass (src : String) (classNode : ClassNode) : Meta :=
  let r := extractClassLoop src classNode.members none []
  { name := classNode.name, constructorMeta := r.1, props := some r.2 }

/-- Interface member as dispatched by the `switch` in `extractInterface`:
a property signature or any other signature kind (ignored). -/
inductive IMember where
  | propertySignature (node : MemberNode)
  | otherMember

/-- Interface declaration node: name and member list. -/
structure InterfaceNode where
  name : String
  members : List IMember

/-- Member loop of `extractInterface` (`index.js` lines 66-73): property
signatures are extracted in order, other member kinds are dropped. -/
def extractInterfaceProps (src : String) : List IMember → List FieldMeta
  | [] => []
  | .propertySignature m :: rest => extractNodeMeta src m :: extractInterfaceProps src rest
  | .otherMember :: rest => extractInterfaceProps src rest

/-- Transcription of `extractInterface` (`index.js` lines 60-75). -/
def extractInterface (src : String) (iNode : InterfaceNode) : Meta :=
  { name := iNode.name, props := some (extractInterfaceProps src iNode.members) }

/-- Function declaration node: name, parameter list, and the declared
return-type annotation (`functionNode.type`). -/
structure FunctionNode where
  name : String
  parameters : List MemberNode
  type : TypeNode

/-- Transcription of `extractFunction` (`index.js` lines 109-120). -/
def extractFunction (src : String) (functionNode : FunctionNode) : Meta :=
  { name := functionNode.name,
    params := some (functionNode.parameters.map (extractNodeMeta src)),
    returnTypes := some (extractNodeTypes functionNode.type) }

mutual
/-- Top-level or container-body statement as dispatched by the `switch` in
`extractStructure`: an interface, class, or function declaration, a
namespace/module container (whose `name` the walker never reads and whose
`body` is an arbitrary node), or any other statement kind (ignored). -/
inductive Stmt where
  | interfaceDecl (node : InterfaceNode)
  | classDecl (node : ClassNode)
  | functionDecl (node : FunctionNode)
  | moduleDecl (name : String) (body : Node)
  | other

/-- Node handed to `extractStructure`: a source file, a module block, or any
node of another kind (on which the walker throws). -/
inductive Node where
  | sourceFile (statements : List Stmt)
  | moduleBlock (statements : List Stmt)
  | otherNode
end

/-- One extracted `(Kind, Metadata)` entry. -/
abbrev StructureEntry := String × Meta

/-- Message of the error thrown by `extractStructure` on a non-container node. -/
def containerErr : String := "node kind must be either SourceFile or ModuleBlock."

mutual
/-- Transcription of `extractStructure` (`index.js` lines 31-58).  The JS
`sourceMeta` accumulator is always freshly created at both call sites
(`this.extractStructure(sourceNode)` and `this.extractStructure(statement.body)`
pass no second argument), so the walker starts each invocation from `[]`;
the thrown `Error` is modelled with `Except.error`. -/
def extractStructure (src : String) : Node → Except String (List StructureEntry)
  | .sourceFile statements => extractStatementsLoop src statements []
  | .moduleBlock statements => extractStatementsLoop src statements []
  | .otherNode => .error containerErr

/-- Statement loop of `extractStructure` (`index.js` lines 38-56), pushing
entries onto the `sourceMeta` accumulator; a `ModuleDeclaration` recurses
into its body and splices (`push(...)`) the resulting entries, and an error
thrown inside the recursion propagates uncaught. -/
def extractStatementsLoop (src : String) : List Stmt → List StructureEntry → Except String (List StructureEntry)
  | [], sourceMeta => .ok sourceMeta
  | .interfaceDecl n :: rest, sourceMeta =>
    extractStatementsLoop src rest (sourceMeta ++ [("Interface", extractInterface src n)])
  | .classDecl n :: rest, sourceMeta =>
    extractStatementsLoop src rest (sourceMeta ++ [("Class", extractClass src n)])
  | .functionDecl n :: rest, sourceMeta =>
    extractStatementsLoop src rest (sourceMeta ++ [("Function", extractFunction src n)])
  | .moduleDecl _ body :: rest, sourceMeta =>
    match extractStructure src body with
    | .ok sub => extractStatementsLoop src rest (sourceMeta ++ sub)
    | .error e => .error e
  | .other :: rest, sourceMeta => extractStatementsLoop src rest sourceMeta
end

mutual
/-- Specification-side order of entries for a node: the top-to-bottom order
of recognized declarations, with nested-container members spliced flat at
the container's position and the container's own name discarded. -/
def specOrderNode (src : String) : Node → List StructureEntry
  | .sourceFile statements => specOrderStmts src statements
  | .moduleBlock statements => specOrderStmts src statements
  | .otherNode => []

/-- Specification-side order of entries for a statement list. -/
def specOrderStmts (src : String) : List Stmt → List StructureEntry
  | [] => []
  | .interfaceDecl n :: rest => ("Interface", extractInterface src n) :: specOrderStmts src rest
  | .classDecl n :: rest => ("Class", extractClass src n) :: specOrderStmts src rest
  | .functionDecl n :: rest => ("Function", extractFunction src n) :: specOrderStmts src rest
  | .moduleDecl _ body :: rest => specOrderNode src body ++ specOrderStmts src rest
  | .other :: rest => specOrderStmts src rest
end

mutual
/-- A node is well formed when it is a recognized container and every module
body reachable inside it is, matching the parser's shape for declaration
files whose namespaces have block bodies. -/
def wfNode : Node → Bool
  | .sourceFile statements => wfStmts statements
  | .moduleBlock statements => wfStmts statements
  | .otherNode => false

/-- Well-formedness of a statement list (see `wfNode`). -/
def wfStmts : List Stmt → Bool
  | [] => true
  | .moduleDecl _ body :: rest => wfNode body && wfStmts rest
  | _ :: rest => wfStmts rest
end

/-- Whether a node is one of the two container kinds accepted by the guard
at the top of `extractStructure`. -/
def isContainer : Node → Bool
  | .sourceFile _ => true
  | .moduleBlock _ => true
  | .otherNode => false

/-- JS stringification of one `types` element inside the renderer's template
literal: a bare string renders as itself, a bare `undefined` renders as the
text `undefined`, and an array renders via `Array.prototype.toString`
(elements comma-joined, `undefined` elements as empty text). -/
def TypeEntry.render : TypeEntry → String
  | .bare (some s) => s
  | .bare none => "undefined"
  | .wrapped names => joinSep "," (names.map (fun n => n.getD ""))

/-- Transcription of `addParamsToMarkdown` (`index.js` lines 241-257). -/
def addParamsToMarkdown : List FieldMeta → String
  | [] => ""
  | (paramName, paramMeta) :: rest =>
    "- **`" ++ paramName ++ "`**: "
      ++ joinSep " | " (paramMeta.types.map (fun t => "**" ++ t.render ++ "**"))
      ++ (if paramMeta.optional then " (optional)" else "")
      ++ (if paramMeta.comments.isEmpty then "" else "\n  " ++ joinSep " " paramMeta.comments)
      ++ "\n"
      ++ addParamsToMarkdown rest

/-- Markdown appended for a single entry by the loop body of `toMarkdown`
(`index.js` lines 214-236): the heading, then the constructor block when
`constructorMeta` is truthy (its `comments` array is always truthy, so the
comment join is always emitted), then the Parameters section when `params`
is present (heading unconditionally, bullets only when non-empty), then the
Properties section when `props` is present and non-empty. -/
def entryToMarkdown (kind : String) (meta : Meta) : String :=
  let md1 := "## " ++ kind ++ ": " ++ meta.name ++ "\n"
  let md2 := match meta.constructorMeta with
    | some cm => md1 ++ "\n" ++ (joinSep "\n\n" cm.comments ++ "\n") ++ "\n" ++ addParamsToMarkdown cm.params
    | none => md1
  let md3 := match meta.params with
    | some ps => md2 ++ "\n" ++ "### Parameters\n" ++ (if ps.isEmpty then "" else "\n" ++ addParamsToMarkdown ps)
    | none => md2
  match meta.props with
  | some ps => if ps.isEmpty then md3 else md3 ++ "\n" ++ "### Properties\n" ++ "\n" ++ addParamsToMarkdown ps
  | none => md3

/-- Entry loop of `toMarkdown` (`index.js` lines 210-237): before every
entry except the first, a separating newline is appended (`if
(markdown.length) markdown += '\n'`). -/
def toMarkdownLoop : List StructureEntry → String → String
  | [], markdown => markdown
  | (kind, meta) :: rest, markdown =>
    toMarkdownLoop rest ((if markdown.isEmpty then markdown else markdown ++ "\n") ++ entryToMarkdown kind meta)

/-- Transcription of `toMarkdown` (`index.js` lines 208-239). -/
def toMarkdown (entries : List StructureEntry) : String :=
  toMarkdownLoop entries ""

/-- Specification-side rendering of one entry, written from the layout rules
of the spec: heading first; constructor block when constructor metadata is
present; a Parameters heading whenever the `params` field exists, with
bullets only when the list is non-empty; a Properties heading (with bullets)
only when the `props` list is present and non-empty; absent or empty `props`
produce no Properties heading at all. -/
def specEntryMarkdown (kind : String) (meta : Meta) : String :=
  ("## " ++ kind ++ ": " ++ meta.name ++ "\n")
    ++ (match meta.constructorMeta with
        | some cm => "\n" ++ (joinSep "\n\n" cm.comments ++ "\n") ++ "\n" ++ addParamsToMarkdown cm.params
        | none => "")
    ++ (match meta.params with
        | some ps => "\n" ++ "### Parameters\n" ++ (if ps.isEmpty then "" else "\n" ++ addParamsToMarkdown ps)
        | none => "")
    ++ (match meta.props with
        | some ps => if ps.isEmpty then "" else "\n" ++ "### Properties\n" ++ "\n" ++ addParamsToMarkdown ps
        | none => "")

/-- Specification-side rendering of the whole entry list: the rendered
entries joined by one separating newline each (which, as every entry ends
its last line with a newline of its own, places a single blank line between
consecutive entries). -/
def specToMarkdown (entries : List StructureEntry) : String :=
  joinSep "\n" (entries.map (fun e => specEntryMarkdown e.1 e.2))

/-- Depth-3 qualified name used to witness claim C2. -/
def eC2 : EntityName := .qualified (.qualified (.ident "A") "B") "C"

/-- Property node used to witness claim C9. -/
def nodeC9 : MemberNode :=
  { name := "id", questionToken := false, type := .keyword "StringKeyword", pos := 0, endPos := 0 }

/-- First constructor of the two-constructor witness class for claim C10. -/
def ctorA : CtorNode := { parameters := [], pos := 0, endPos := 0 }

/-- Second constructor of the two-constructor witness class for claim C10. -/
def ctorB : CtorNode :=
  { parameters := [{ name := "x", questionToken := false, type := .keyword "NumberKeyword",
                     pos := 0, endPos := 0 }],
    pos := 1, endPos := 1 }

/-- Span text for the merged-paragraph witness of claim C3. -/
def srcC3a : String := "// a\n// b"

/-- Span text for the split-paragraph witness of claim C3. -/
def srcC3b : String := "// a\n\n// b"

/-- Span text for the scan-termination witness of claim C3: the code line
ends the scan, so the trailing comment is not picked up. -/
def srcC3c : String := "// a\nfoo()\n// zz"

/-- Source body whose property is preceded by an 84-character comment made
of short words; used to refute claim C4. -/
def srcC4 : String :=
  "// aaaa bbbb cccc dddd eeee ffff gggg hhhh iiii jjjj kkkk llll mmmm nnnn oooo pppp qqqq\nfoo: string\n"

/-- Interface whose single property spans the whole of `srcC4`. -/
def ifaceC4 : InterfaceNode :=
  { name := "Example",
    members := [.propertySignature
      { name := "foo", questionToken := false, type := .keyword "StringKeyword",
        pos := 0, endPos := srcC4.length }] }

/-- Split a line into its space-separated words. -/
def splitSpaces : List Char → List (List Char)
  | [] => [[]]
  | ' ' :: rest => [] :: splitSpaces rest
  | c :: rest =>
    match splitSpaces rest with
    | [] => [[c]]
    | w :: ws => (c :: w) :: ws

/-- A string refutes 80-column word wrapping when one of its lines is longer
than 80 characters even though each of its space-separated words fits within
80 characters — a wrap breaking only at whitespace would have broken such a
line. -/
def violatesWrap80 (s : String) : Bool :=
  (splitLinesCh s.toList).any
    (fun line => 80 < line.length && (splitSpaces line).all (fun w => w.length ≤ 80))

/-- Markdown contributed by every entry after the first: each is preceded by
the separating newline the renderer loop appends. -/
def tailMarkdown : List StructureEntry → String
  | [] => ""
  | e :: rest => "\n" ++ entryToMarkdown e.1 e.2 ++ tailMarkdown rest

/-- Source tree used to witness claim C5: an ignored statement, an
interface, a namespace wrapping a function, and a class. -/
def nodeC5 : Node :=
  .sourceFile
    [.other,
     .interfaceDecl { name := "I", members := [] },
     .moduleDecl "NS"
       (.moduleBlock
         [.functionDecl { name := "f", parameters := [], type := .keyword "NumberKeyword" }]),
     .classDecl { name := "K", members := [] }]

/-- Entry list extracted from `nodeC5`. -/
def entriesC5 : List StructureEntry :=
  [("Interface", { name := "I", props := some [] }),
   ("Function", { name := "f", params := some [], returnTypes := some [.wrapped [some "number"]] }),
   ("Class", { name := "K", props := some [] })]

theorem segments_ne_nil (e : EntityName) : segments e ≠ [] := by
  cases e <;> simp [segments]

theorem dotJoin_append_single (xs : List String) (y : String) (h : xs ≠ []) :
    dotJoin (xs ++ [y]) = dotJoin xs ++ "." ++ y := by
  induction xs with
  | nil => exact absurd rfl h
  | cons x xs ih =>
    cases xs with
    | nil => simp [dotJoin, joinSep]
    | cons x2 xs2 =>
      have ih2 := ih (by simp)
      simp only [dotJoin, List.cons_append, joinSep, List.append_eq] at ih2 ⊢
      rw [ih2]
      simp [String.append_assoc]

theorem extractTypeName_eq_dotJoin : ∀ (e : EntityName), (∀ s ∈ segments e, s ≠ "") →
    extractTypeName e = dotJoin (segments e)
  | .ident t, _ => by simp [extractTypeName, segments, dotJoin, joinSep]
  | .qualified (.ident lt) r, h => by
    have hlt : lt ≠ "" := h lt (by simp [segments])
    simp [extractTypeName, segments, dotJoin, joinSep, hlt, String.append_assoc]
  | .qualified (.qualified ll lr) r, h => by
    have ih := extractTypeName_eq_dotJoin ll
      (fun s hs => h s (by simp only [segments, List.mem_append]; exact Or.inl (Or.inl hs)))
    have h1 : segments ll ≠ [] := segments_ne_nil ll
    have h2 : segments ll ++ [lr] ≠ [] := by simp
    simp only [extractTypeName, segments]
    rw [dotJoin_append_single _ r h2, dotJoin_append_single _ lr h1, ih]

/-- Claim C2: for every qualified type-reference node of any nesting depth,
`extractTypeName` returns the dotted name whose segments appear left-to-right
in source order, and a simple-identifier node resolves to its identifier
text (the hypothesis that every identifier has non-empty text matches the
parser, which never produces empty `escapedText` for a resolvable name). -/
theorem tj_C2 (e : EntityName) (h : ∀ s ∈ segments e, s ≠ "") :
    extractTypeName e = dotJoin (segments e) :=
  extractTypeName_eq_dotJoin e h

/-- Witness for claim C2 at the depth-3 name `A.B.C`. -/
theorem tj_C2_witness : extractTypeName eC2 = "A.B.C" :=
  tj_C2 eC2 (by decide)

/-- Counterexample to claim C1 as stated: a property typed
`string | number` yields `types = ["string", "number"]` — the union branch
of `extractNodeTypes` pushes each resolved alternative without wrapping it,
so the value differs from the claimed `[["string"], ["number"]]`. -/
theorem tj_C1_cex :
    extractNodeTypes (.union [.keyword "StringKeyword", .keyword "NumberKeyword"])
      = [.bare (some "string"), .bare (some "number")]
    ∧ extractNodeTypes (.union [.keyword "StringKeyword", .keyword "NumberKeyword"])
      ≠ [.wrapped [some "string"], .wrapped [some "number"]] := by
  exact ⟨rfl, by decide⟩

/-- Claim C1 as amended: the `types` field nests one level only for a
non-union annotation; for a union annotation each alternative is pushed
bare, one entry per union member in order. -/
theorem tj_C1 :
    (∀ ts : List TypeNode,
      extractNodeTypes (.union ts) = ts.map (fun t => TypeEntry.bare (resolveType t)))
    ∧ ∀ t : TypeNode, t.hasTypes = false → extractNodeTypes t = [.wrapped [resolveType t]] := by
  constructor
  · intro ts
    induction ts with
    | nil => rfl
    | cons t rest ih =>
      simp only [extractNodeTypes] at ih ⊢
      simp [unionLoop, ih]
  · intro t ht
    cases t <;> simp_all [TypeNode.hasTypes, extractNodeTypes]

/-- Witness for the non-union half of the amended claim C1. -/
theorem tj_C1_witness :
    extractNodeTypes (.keyword "StringKeyword") = [.wrapped [some "string"]] :=
  tj_C1.2 (.keyword "StringKeyword") rfl

/-- Claim C8: a syntax-kind name outside the fixed lookup table resolves to
an absent (`undefined`) name — as the bare table miss, as the single wrapped
entry of a non-union annotation, as the entry of a literal type whose
literal kind is unknown, and as a bare union member — and extraction
completes normally (all extraction functions here are total; the only
modelled error path is the container guard of `extractStructure`). -/
theorem tj_C8 (kind : String)
    (h : kind ∉ ["StringKeyword", "NumberKeyword", "BooleanKeyword",
                 "NullKeyword", "UndefinedKeyword", "ObjectKeyword"]) :
    keywordMap kind = none
    ∧ extractNodeTypes (.keyword kind) = [.wrapped [none]]
    ∧ extractNodeTypes (.literalType kind) = [.wrapped [none]]
    ∧ ∀ ts, extractNodeTypes (.union (.keyword kind :: ts))
        = .bare none :: extractNodeTypes (.union ts) := by
  obtain ⟨h1, h2, h3, h4, h5, h6⟩ :
      ¬kind = "StringKeyword" ∧ ¬kind = "NumberKeyword" ∧ ¬kind = "BooleanKeyword"
      ∧ ¬kind = "NullKeyword" ∧ ¬kind = "UndefinedKeyword" ∧ ¬kind = "ObjectKeyword" := by
    simpa [not_or] using h
  have hk : keywordMap kind = none := by
    simp [keywordMap, h1, h2, h3, h4, h5, h6]
  refine ⟨hk, ?_, ?_, ?_⟩
  · simp [extractNodeTypes, resolveType, TypeNode.kindName, hk]
  · simp [extractNodeTypes, resolveType, hk]
  · intro ts
    simp [extractNodeTypes, unionLoop, resolveType, TypeNode.kindName, hk]

/-- Witness for claim C8 at the unmapped kind name `AnyKeyword`. -/
theorem tj_C8_witness :
    keywordMap "AnyKeyword" = none
    ∧ extractNodeTypes (.keyword "AnyKeyword") = [.wrapped [none]] := by
  have h := tj_C8 "AnyKeyword" (by decide)
  exact ⟨h.1, h.2.1⟩

/-- Claim C9: every FieldMeta produced by the generic member extraction
routine has a non-empty `types` sequence (the hypothesis excludes only a
union node with an empty member list, which the parser never produces —
union type syntax has at least two members). -/
theorem tj_C9 (src : String) (node : MemberNode) (h : node.type ≠ TypeNode.union []) :
    (extractNodeMeta src node).2.types ≠ [] := by
  have he : (extractNodeMeta src node).2.types = extractNodeTypes node.type := rfl
  rw [he]
  cases ht : node.type with
  | union ts =>
    cases ts with
    | nil => exact absurd ht h
    | cons t rest => simp [extractNodeTypes, unionLoop]
  | ref n => simp [extractNodeTypes]
  | literalType lk => simp [extractNodeTypes]
  | keyword k => simp [extractNodeTypes]

/-- Witness for claim C9 on a concrete string-typed property. -/
theorem tj_C9_witness : (extractNodeMeta "" nodeC9).2.types ≠ [] :=
  tj_C9 "" nodeC9 (fun h => nomatch h)

theorem extractClassLoop_append (src : String) (ms1 ms2 : List ClassMember)
    (acc : Option ConstructorMeta) (props : List FieldMeta) :
    extractClassLoop src (ms1 ++ ms2) acc props
      = extractClassLoop src ms2 (extractClassLoop src ms1 acc props).1
          (extractClassLoop src ms1 acc props).2 := by
  induction ms1 generalizing acc props with
  | nil => simp [extractClassLoop]
  | cons m rest ih => cases m <;> simp [extractClassLoop, ih]

theorem extractClassLoop_no_ctor (src : String) (ms : List ClassMember)
    (acc : Option ConstructorMeta) (props : List FieldMeta)
    (h : ms.all (fun m => !m.isCtor) = true) :
    (extractClassLoop src ms acc props).1 = acc := by
  induction ms generalizing props with
  | nil => rfl
  | cons m rest ih =>
    cases m with
    | ctor c => simp [ClassMember.isCtor] at h
    | property p =>
      simp only [List.all_cons, Bool.and_eq_true] at h
      simpa [extractClassLoop] using ih _ h.2
    | otherMember =>
      simp only [List.all_cons, Bool.and_eq_true] at h
      simpa [extractClassLoop] using ih _ h.2

/-- Claim C10: when a class declaration contains several constructor
members, each successive constructor overwrites the previous one, so the
extracted `constructorMeta` is that of the last constructor in member order
(and the loop raises no error); `ms1` may already contain constructors,
`ms2` is the ctor-free tail after the last one. -/
theorem tj_C10 (src name : String) (ms1 : List ClassMember) (c : CtorNode)
    (ms2 : List ClassMember) (h : ms2.all (fun m => !m.isCtor) = true) :
    (extractClass src ⟨name, ms1 ++ ClassMember.ctor c :: ms2⟩).constructorMeta
      = some (extractConstructor src c) := by
  have e1 : ms1 ++ ClassMember.ctor c :: ms2 = (ms1 ++ [ClassMember.ctor c]) ++ ms2 := by simp
  unfold extractClass
  simp only [e1, extractClassLoop_append]
  rw [extractClassLoop_no_ctor src ms2 _ _ h]
  simp [extractClassLoop]

/-- Witness for claim C10: a class with two constructors keeps the second. -/
theorem tj_C10_witness :
    (extractClass "" ⟨"K", [ClassMember.ctor ctorA, ClassMember.ctor ctorB]⟩).constructorMeta
      = some (extractConstructor "" ctorB) :=
  tj_C10 "" "K" [ClassMember.ctor ctorA] ctorB [] rfl

theorem commentMatch_of_blank (l : List Char) (h : isBlankLine l = true) :
    commentMatch l = none := by
  have hd : l.dropWhile jsIsSpace = [] := by
    rw [List.dropWhile_eq_nil_iff]
    intro x hx
    exact List.all_eq_true.mp h x hx
  unfold commentMatch
  rw [hd]

/-- Claim C3: over a declaration node's span, the comment scan merges
consecutive comment lines with no blank line between them into one
paragraph, splits comment lines separated by a blank line into two
paragraphs, and stops at the first non-comment non-blank line that follows
a comment line with no intervening blank line (everything after that line,
`rest`, is ignored). -/
theorem tj_C3 :
    (∀ (src : String) (pos endPos : Nat) (l1 l2 : List Char) (t1 t2 : String),
      splitLinesCh (sliceChars src pos endPos) = [l1, l2] →
      commentMatch l1 = some t1 → commentMatch l2 = some t2 →
      extractNodeCommentsList src pos endPos [] = [t1 ++ " " ++ t2])
    ∧ (∀ (src : String) (pos endPos : Nat) (l1 lb l2 : List Char) (t1 t2 : String),
      splitLinesCh (sliceChars src pos endPos) = [l1, lb, l2] →
      commentMatch l1 = some t1 → isBlankLine lb = true → commentMatch l2 = some t2 →
      extractNodeCommentsList src pos endPos [] = [t1, t2])
    ∧ (∀ (src : String) (pos endPos : Nat) (l1 lc : List Char) (rest : List (List Char)) (t1 : String),
      splitLinesCh (sliceChars src pos endPos) = l1 :: lc :: rest →
      commentMatch l1 = some t1 → commentMatch lc = none → isBlankLine lc = false →
      extractNodeCommentsList src pos endPos [] = [t1]) := by
  refine ⟨?_, ?_, ?_⟩
  · intro src pos endPos l1 l2 t1 t2 hsplit hc1 hc2
    unfold extractNodeCommentsList
    rw [hsplit]
    simp [scanCommentLines, hc1, hc2, appendToLast]
  · intro src pos endPos l1 lb l2 t1 t2 hsplit hc1 hb hc2
    unfold extractNodeCommentsList
    rw [hsplit]
    simp [scanCommentLines, hc1, commentMatch_of_blank lb hb, hb, hc2]
  · intro src pos endPos l1 lc rest t1 hsplit hc1 hlc hlb
    unfold extractNodeCommentsList
    rw [hsplit]
    simp [scanCommentLines, hc1, hlc, hlb]

/-- Witness for claim C3 on three concrete spans. -/
theorem tj_C3_witness :
    extractNodeCommentsList srcC3a 0 9 [] = ["a b"]
    ∧ extractNodeCommentsList srcC3b 0 10 [] = ["a", "b"]
    ∧ extractNodeCommentsList srcC3c 0 16 [] = ["a"] := by
  refine ⟨?_, ?_, ?_⟩
  · exact tj_C3.1 srcC3a 0 9 ['/', '/', ' ', 'a'] ['/', '/', ' ', 'b'] "a" "b" rfl rfl rfl
  · exact tj_C3.2.1 srcC3b 0 10 ['/', '/', ' ', 'a'] [] ['/', '/', ' ', 'b'] "a" "b" rfl rfl rfl rfl
  · exact tj_C3.2.2 srcC3c 0 16 ['/', '/', ' ', 'a'] ['f', 'o', 'o', '(', ')']
      [['/', '/', ' ', 'z', 'z']] "a" rfl rfl rfl rfl

/-- Counterexample to claim C4 as stated: the FieldMeta extracted for the
property of `ifaceC4` stores a comment paragraph that is a single
84-character line of short words — the 80-column word-wrapped text computed
by `extractNodeComments` is discarded by its callers, so the stored comments
are not wrapped. -/
theorem tj_C4_cex :
    ((extractInterface srcC4 ifaceC4).props.getD []).any
      (fun fm => fm.2.comments.any (fun s => violatesWrap80 s)) = true := by
  rfl

/-- Claim C4 as amended: the comments stored in every member's FieldMeta and
in ConstructorMeta are exactly the unwrapped paragraph strings accumulated
by the line scan over the node's span; the 80-column wrapped join computed
as `extractNodeComments`'s return value is discarded by every caller and
never reaches the model or the renderer. -/
theorem tj_C4 (src : String) (node : MemberNode) (c : CtorNode) :
    (extractNodeMeta src node).2.comments
      = scanCommentLines (splitLinesCh (sliceChars src node.pos node.endPos)) [] false false
    ∧ (extractConstructor src c).comments
      = scanCommentLines (splitLinesCh (sliceChars src c.pos c.endPos)) [] false false :=
  ⟨rfl, rfl⟩

mutual
theorem extractStructure_eq_spec (src : String) : (n : Node) →
    extractStructure src n
      = if wfNode n then .ok (specOrderNode src n) else .error containerErr
  | .sourceFile ss => by
    have ih := extractStatementsLoop_eq_spec src ss []
    simp only [extractStructure, wfNode, specOrderNode]
    simpa using ih
  | .moduleBlock ss => by
    have ih := extractStatementsLoop_eq_spec src ss []
    simp only [extractStructure, wfNode, specOrderNode]
    simpa using ih
  | .otherNode => by simp [extractStructure, wfNode]

theorem extractStatementsLoop_eq_spec (src : String) :
    (ss : List Stmt) → (acc : List StructureEntry) →
    extractStatementsLoop src ss acc
      = if wfStmts ss then .ok (acc ++ specOrderStmts src ss) else .error containerErr
  | [], acc => by simp [extractStatementsLoop, wfStmts, specOrderStmts]
  | .interfaceDecl n :: rest, acc => by
    have ih := extractStatementsLoop_eq_spec src rest (acc ++ [("Interface", extractInterface src n)])
    simp only [extractStatementsLoop, wfStmts, specOrderStmts]
    rw [ih]
    split <;> simp
  | .classDecl n :: rest, acc => by
    have ih := extractStatementsLoop_eq_spec src rest (acc ++ [("Class", extractClass src n)])
    simp only [extractStatementsLoop, wfStmts, specOrderStmts]
    rw [ih]
    split <;> simp
  | .functionDecl n :: rest, acc => by
    have ih := extractStatementsLoop_eq_spec src rest (acc ++ [("Function", extractFunction src n)])
    simp only [extractStatementsLoop, wfStmts, specOrderStmts]
    rw [ih]
    split <;> simp
  | .moduleDecl name body :: rest, acc => by
    have ihb := extractStructure_eq_spec src body
    simp only [extractStatementsLoop, wfStmts, specOrderStmts]
    rw [ihb]
    by_cases hb : wfNode body
    · have ihr := extractStatementsLoop_eq_spec src rest (acc ++ specOrderNode src body)
      simp only [hb, if_true, Bool.true_and]
      rw [ihr]
      split <;> simp
    · simp [hb]
  | .other :: rest, acc => by
    have ih := extractStatementsLoop_eq_spec src rest acc
    simp [extractStatementsLoop, wfStmts, specOrderStmts, ih]
end

/-- Claim C5: whenever the walker succeeds, the produced entry sequence is
exactly the top-to-bottom source order of recognized interface, class, and
function declarations, with the members of each nested namespace-like
container spliced flat at the container's position, the container's own
name discarded (no entry mentions it), and unrecognized statement kinds
contributing nothing. -/
theorem tj_C5 (src : String) (n : Node) (es : List StructureEntry)
    (h : extractStructure src n = .ok es) : es = specOrderNode src n := by
  rw [extractStructure_eq_spec] at h
  by_cases hw : wfNode n
  · rw [if_pos hw] at h
    exact (Except.ok.injEq _ _ |>.mp h).symm
  · rw [if_neg hw] at h
    exact absurd h (by simp)

/-- Witness for claim C5 on the concrete tree `nodeC5`. -/
theorem tj_C5_witness : entriesC5 = specOrderNode "" nodeC5 :=
  tj_C5 "" nodeC5 entriesC5 rfl

/-- Claim C7: the walker errors (with the uncaught precondition message) on
every node that is not a recognized container, succeeds on every recognized
container (well-formed, i.e. its nested module bodies are containers too,
as the parser guarantees for block-bodied namespaces), and an error raised
by a nested invocation propagates out of the statement loop unchanged —
nothing catches it. -/
theorem tj_C7 :
    (∀ (src : String) (n : Node), isContainer n = false →
      extractStructure src n = .error containerErr)
    ∧ (∀ (src : String) (n : Node), wfNode n = true →
      extractStructure src n = .ok (specOrderNode src n))
    ∧ ∀ (src name : String) (body : Node) (rest : List Stmt)
        (acc : List StructureEntry) (e : String),
        extractStructure src body = .error e →
        extractStatementsLoop src (.moduleDecl name body :: rest) acc = .error e := by
  refine ⟨?_, ?_, ?_⟩
  · intro src n h
    cases n with
    | sourceFile ss => simp [isContainer] at h
    | moduleBlock ss => simp [isContainer] at h
    | otherNode => simp [extractStructure]
  · intro src n h
    rw [extractStructure_eq_spec, if_pos h]
  · intro src name body rest acc e h
    simp [extractStatementsLoop, h]

/-- Witness for claim C7: the walker rejects a non-container node, accepts
a one-interface source file, and propagates the nested error for a module
whose body is not a container. -/
theorem tj_C7_witness :
    extractStructure "" Node.otherNode = .error containerErr
    ∧ extractStructure "" (.sourceFile [.interfaceDecl { name := "J", members := [] }])
        = .ok (specOrderNode "" (.sourceFile [.interfaceDecl { name := "J", members := [] }]))
    ∧ extractStatementsLoop "" [.moduleDecl "M" Node.otherNode] [] = .error containerErr := by
  refine ⟨tj_C7.1 "" Node.otherNode rfl, tj_C7.2.1 "" _ rfl, ?_⟩
  exact tj_C7.2.2 "" "M" Node.otherNode [] [] containerErr rfl

theorem str_ne_empty_append (a b : String) (h : a ≠ "") : a ++ b ≠ "" := by
  intro hab
  apply h
  have hd : a.data ++ b.data = ([] : List Char) := by
    rw [← String.data_append, hab]
  exact String.ext (List.append_eq_nil.mp hd).1

theorem strNL_fold (s : String) : "\n" ++ ("\n" ++ s) = "\n\n" ++ s := by
  rw [← String.append_assoc]
  exact congrArg (fun x => x ++ s) rfl

theorem strFoldParams (s : String) :
    "\n" ++ ("\n### Parameters\n" ++ s) = "\n\n### Parameters\n" ++ s := by
  rw [← String.append_assoc]
  exact congrArg (fun x => x ++ s) rfl

theorem strFoldProps (s : String) :
    "\n" ++ ("\n### Properties\n\n" ++ s) = "\n\n### Properties\n\n" ++ s := by
  rw [← String.append_assoc]
  exact congrArg (fun x => x ++ s) rfl

theorem entryToMarkdown_eq_spec (k : String) (m : Meta) :
    entryToMarkdown k m = specEntryMarkdown k m := by
  obtain ⟨mn, cm, ps, pr, rt⟩ := m
  cases cm <;> cases ps <;> cases pr <;>
    simp [entryToMarkdown, specEntryMarkdown, String.append_assoc, String.append_empty,
      strNL_fold, strFoldParams, strFoldProps]
  all_goals
    split <;>
      simp [String.append_assoc, String.append_empty, strNL_fold, strFoldParams, strFoldProps]

theorem entryToMarkdown_ne_empty (k : String) (m : Meta) : entryToMarkdown k m ≠ "" := by
  have hp : ∀ s : String, "## " ++ s ≠ "" := by
    intro s h
    have hd : ("## ").data ++ s.data = ([] : List Char) := by
      rw [← String.data_append, h]
    exact absurd (List.append_eq_nil.mp hd).1 (by decide)
  obtain ⟨mn, cm, ps, pr, rt⟩ := m
  cases cm <;> cases ps <;> cases pr <;>
    simp only [entryToMarkdown, String.append_assoc] <;>
    first
      | exact hp _
      | (split <;> exact hp _)

theorem toMarkdownLoop_acc (es : List StructureEntry) (acc : String) (h : acc ≠ "") :
    toMarkdownLoop es acc = acc ++ tailMarkdown es := by
  induction es generalizing acc with
  | nil => simp [toMarkdownLoop, tailMarkdown, String.append_empty]
  | cons e rest ih =>
    obtain ⟨k, m⟩ := e
    have hne : acc.isEmpty = false := by
      rw [Bool.eq_false_iff]
      intro hemp
      exact h ((String.isEmpty_iff acc).mp hemp)
    have hacc2 : acc ++ "\n" ++ entryToMarkdown k m ≠ "" :=
      str_ne_empty_append _ _ (str_ne_empty_append _ _ h)
    simp only [toMarkdownLoop, hne, Bool.false_eq_true, if_false]
    rw [ih _ hacc2]
    simp only [tailMarkdown]
    simp [String.append_assoc]

theorem joinSep_entries (e : StructureEntry) (rest : List StructureEntry) :
    joinSep "\n" ((e :: rest).map (fun x => entryToMarkdown x.1 x.2))
      = entryToMarkdown e.1 e.2 ++ tailMarkdown rest := by
  induction rest generalizing e with
  | nil => simp [joinSep, tailMarkdown, String.append_empty]
  | cons e2 rest2 ih =>
    simp only [List.map_cons, joinSep, tailMarkdown] at ih ⊢
    rw [ih e2]
    simp [String.append_assoc, tailMarkdown]

/-- Claim C6: the renderer's output is exactly the specification-side
rendering -- entries joined with one separating newline each (a single blank
line between entries, as each entry's markdown ends with a newline), a
Properties heading only for a present non-empty `props` list, a Parameters
heading whenever `params` exists even if empty, with bullets only when
non-empty. -/
theorem tj_C6 (entries : List StructureEntry) : toMarkdown entries = specToMarkdown entries := by
  cases entries with
  | nil => rfl
  | cons e rest =>
    obtain ⟨k, m⟩ := e
    have hmap : ∀ es : List StructureEntry,
        es.map (fun x => specEntryMarkdown x.1 x.2) = es.map (fun x => entryToMarkdown x.1 x.2) := by
      intro es
      induction es with
      | nil => rfl
      | cons a t ih => simp [ih, entryToMarkdown_eq_spec]
    have e0 : ("" : String).isEmpty = true := rfl
    have h1 : toMarkdown ((k, m) :: rest) = entryToMarkdown k m ++ tailMarkdown rest := by
      have h2 : toMarkdownLoop ((k, m) :: rest) "" = toMarkdownLoop rest (entryToMarkdown k m) := by
        simp [toMarkdownLoop, e0, String.empty_append]
      rw [toMarkdown, h2, toMarkdownLoop_acc rest _ (entryToMarkdown_ne_empty k m)]
    rw [h1, specToMarkdown, hmap ((k, m) :: rest)]
    exact (joinSep_entries (k, m) rest).symm
